import Mathlib

/-!
Verification development for the `SyncCollidersToPhysicsSystem` of the
specs-physics repository (file `src/systems/sync_colliders_to_physics.rs`).

The system synchronises `PhysicsCollider` components into an external
nphysics `World`.  The embedding below translates the data model and the
four operations of that file — the per-tick driver loop, `add_collider`,
`update_collider` and `remove_collider` — into executable Lean functions.

Modelling conventions:

* The scalar type `N : RealField` is instantiated with `ℤ`: the source file
  only ever reads coordinates and adds them (`position + offset`), and every
  concrete value appearing in the repository's test is integral
  (position `(1.0, 1.0, 1.0)`, circle radius `5.0`).
* The specs `HashMap<Index, Handle>` registries are association lists with
  unique-key insertion (`AList.insert` erases the key first), matching
  `HashMap::insert` / `HashMap::remove` semantics at the `lookup` level.
* Rust panics (`unwrap`, and documented nphysics panic when removing a
  collider that no longer exists — see the comment at lines 248–251 of the
  source) are modelled as `Option.none` propagating out of the tick.
* The nphysics `World` itself is external to the repository; it is modelled
  from the spec's interface description (§6): rigid-body lookup by handle,
  collider construction returning a handle or failure, collider existence
  lookup, collider removal, and collision-group mutation.
-/

namespace SpecsPhysics

/-- Entity index, `specs::world::Index`. -/
abbrev Index := ℕ

namespace AList

/-- Association-list lookup: first binding of the key wins, like
`HashMap::get` on a unique-key map. -/
def find {α : Type} (k : ℕ) : List (ℕ × α) → Option α
  | [] => none
  | (k', v) :: rest => if k' = k then some v else find k rest

/-- Remove every binding of the key, like `HashMap::remove`. -/
def erase {α : Type} (k : ℕ) : List (ℕ × α) → List (ℕ × α)
  | [] => []
  | (k', v) :: rest => if k' = k then erase k rest else (k', v) :: erase k rest

/-- Insert-or-replace a binding, like `HashMap::insert`. -/
def insert {α : Type} (k : ℕ) (v : α) (m : List (ℕ × α)) : List (ℕ × α) :=
  (k, v) :: erase k m

end AList

/-- Shape descriptor.  Modelled from the spec: the shape is an opaque value
type passed through unchanged (§1, §6); the repository's test uses
`Shape::Circle(5.0)`, so a circle constructor is provided. -/
inductive Shape
  | circle (radius : ℤ)
  | cuboid (x y z : ℤ)
deriving DecidableEq

/-- A 3-vector of coordinates (`nalgebra::Vector3`). -/
structure Vector3 where
  x : ℤ
  y : ℤ
  z : ℤ
deriving DecidableEq

/-- `nphysics::object::BodyPartHandle`: either the world-anchor (ground)
sentinel or a part of a real body. -/
inductive BodyPartHandle
  | ground
  | part (body : ℕ) (partId : ℕ)
deriving DecidableEq

/-- `BodyPartHandle::is_ground`. -/
def BodyPartHandle.is_ground : BodyPartHandle → Bool
  | .ground => true
  | .part _ _ => false

/-- The `PhysicsCollider` component.  Its definition lives in the
repository's `collider` module (not under `src/`); the fields are exactly
those the source file reads: shape, `offset_from_parent` translation,
density, material, margin, collision groups, linear/angular prediction,
sensor flag, and the cached optional handle (written at line 214). -/
structure PhysicsCollider where
  shape : Shape
  offset_from_parent : Vector3
  density : ℤ
  material : ℕ
  margin : ℤ
  collision_groups : ℕ
  linear_prediction : ℤ
  angular_prediction : ℤ
  sensor : Bool
  handle : Option ℕ
deriving DecidableEq

/-- The data a built collider carries inside the physics world: the fields
fed into `ColliderDesc` at lines 200–210 of the source. -/
structure ColliderData where
  shape : Shape
  translation : Vector3
  density : ℤ
  material : ℕ
  margin : ℤ
  collision_groups : ℕ
  linear_prediction : ℤ
  angular_prediction : ℤ
  sensor : Bool
  user_data : Index
  parent : BodyPartHandle
deriving DecidableEq

/-- The nphysics `World`.  Modelled from the spec (§6): an opaque mutable
store supporting rigid-body lookup, collider construction (which the engine
may refuse, §4.3 — `rejects` is the engine's opaque acceptance predicate on
shapes), collider lookup, collider removal and collision-group mutation. -/
structure World where
  bodies : List ℕ
  colliders : List (ℕ × ColliderData)
  nextHandle : ℕ
  rejects : Shape → Bool

/-- `World::rigid_body`: look a body up by handle. -/
def World.rigid_body (w : World) (h : ℕ) : Option ℕ :=
  if h ∈ w.bodies then some h else none

/-- `Collider` lookup by handle (`World::collider`). -/
def World.collider (w : World) (h : ℕ) : Option ColliderData :=
  AList.find h w.colliders

/-- `World::remove_colliders` for a single handle.  Removing a collider
that no longer exists panics (source comment, lines 248–251): the panic is
`none`. -/
def World.remove_colliders (w : World) (h : ℕ) : Option World :=
  if (w.collider h).isSome then
    some { w with colliders := AList.erase h w.colliders }
  else none

/-- `ColliderWorld::set_collision_groups`: mutate the collision groups of a
live collider in place. -/
def World.set_collision_groups (w : World) (h : ℕ) (g : ℕ) : World :=
  { w with
    colliders := w.colliders.map (fun p =>
      if p.1 = h then (p.1, { p.2 with collision_groups := g }) else p) }

/-- `ColliderDesc::build_with_parent`: the engine either refuses the
construction (`none`) or stores the collider under a fresh handle. -/
def World.build_with_parent (w : World) (cd : ColliderData) : Option (World × ℕ) :=
  if w.rejects cd.shape then none
  else
    some ({ w with colliders := (w.nextHandle, cd) :: w.colliders,
                   nextHandle := w.nextHandle + 1 },
          w.nextHandle)

/-- The shared `Physics<N>` resource: the physics world plus the
index→body-handle and index→collider-handle registries. -/
structure Physics where
  world : World
  body_handles : List (Index × ℕ)
  collider_handles : List (Index × ℕ)

/-- Parent resolution, inlined in `add_collider` at lines 154–178:
direct body lookup for the index (with liveness check via
`rigid_body(..).map_or(ground, part_handle)`), else the optional parent
entity's body under the same check, else ground. -/
def resolve_parent (id : Index) (parent_entity : Option Index) (physics : Physics) :
    BodyPartHandle :=
  match AList.find id physics.body_handles with
  | some parent_handle =>
      (physics.world.rigid_body parent_handle).elim BodyPartHandle.ground
        (fun b => BodyPartHandle.part b 0)
  | none =>
      match parent_entity with
      | some pe =>
          match AList.find pe physics.body_handles with
          | some parent_handle =>
              (physics.world.rigid_body parent_handle).elim BodyPartHandle.ground
                (fun b => BodyPartHandle.part b 0)
          | none => BodyPartHandle.ground
      | none => BodyPartHandle.ground

/-- Stale-handle cleanup at the top of `add_collider` (source lines
146–149): an already-registered handle for this inserted event is
deregistered and the old collider is removed from the world — with *no*
existence check, so a stale handle hits the nphysics panic (`none`). -/
def staleCleanup (id : Index) (physics : Physics) : Option Physics :=
  match AList.find id physics.collider_handles with
  | some handle =>
      (physics.world.remove_colliders handle).map (fun w =>
        { physics with
          world := w,
          collider_handles := AList.erase id physics.collider_handles })
  | none => some physics

/-- The `ColliderDesc` bundle built at source lines 200–210, including the
translation computed at lines 183–197: `position + offset` when the
resolved parent is the ground sentinel, `offset` alone otherwise. -/
def collider_desc (id : Index) (position : Vector3) (pc : PhysicsCollider)
    (parent_part_handle : BodyPartHandle) : ColliderData :=
  { shape := pc.shape,
    translation :=
      if parent_part_handle.is_ground then
        ⟨position.x + pc.offset_from_parent.x,
         position.y + pc.offset_from_parent.y,
         position.z + pc.offset_from_parent.z⟩
      else pc.offset_from_parent,
    density := pc.density, material := pc.material, margin := pc.margin,
    collision_groups := pc.collision_groups,
    linear_prediction := pc.linear_prediction,
    angular_prediction := pc.angular_prediction,
    sensor := pc.sensor, user_data := id, parent := parent_part_handle }

/-- `add_collider` (source lines 135–221): stale-handle cleanup, parent
resolution, collider construction (`build_with_parent(..).unwrap()` — the
engine's refusal is the propagated `none`), then cache the new handle on
the component and register it. -/
def add_collider (id : Index) (parent_entity : Option Index) (position : Vector3)
    (physics : Physics) (physics_collider : PhysicsCollider) :
    Option (Physics × PhysicsCollider) :=
  (staleCleanup id physics).bind (fun ph1 =>
    (ph1.world.build_with_parent
        (collider_desc id position physics_collider
          (resolve_parent id parent_entity ph1))).map (fun r =>
      ({ ph1 with
         world := r.1,
         collider_handles := AList.insert id r.2 ph1.collider_handles },
       { physics_collider with handle := some r.2 })))

/-- `update_collider` (source lines 223–239): `handle.unwrap()` (panic as
`none` when absent), then propagate the collision groups into the live
collider. -/
def update_collider (id : Index) (physics : Physics)
    (physics_collider : PhysicsCollider) : Option Physics :=
  match physics_collider.handle with
  | none => none
  | some collider_handle =>
      some { physics with
             world := physics.world.set_collision_groups collider_handle
               physics_collider.collision_groups }

/-- `remove_collider` (source lines 241–258): deregister the handle; if one
was registered, remove the collider from the world only after checking it
still exists. -/
def remove_collider (id : Index) (physics : Physics) : Option Physics :=
  match AList.find id physics.collider_handles with
  | none => some physics
  | some handle =>
      let ph1 := { physics with
                   collider_handles := AList.erase id physics.collider_handles }
      if (ph1.world.collider handle).isSome then
        (ph1.world.remove_colliders handle).map (fun w => { ph1 with world := w })
      else some ph1

/-- The six per-tick raw event sets produced by `iterate_component_events`
for the position store and the `PhysicsCollider` store (source lines
50–59). -/
structure Events where
  inserted_positions : List Index
  modified_positions : List Index
  removed_positions : List Index
  inserted_physics_colliders : List Index
  modified_physics_colliders : List Index
  removed_physics_colliders : List Index

/-- Condition of the inserted branch (source line 77). -/
abbrev insertedFired (ev : Events) (id : Index) : Prop :=
  id ∈ ev.inserted_positions ∨ id ∈ ev.inserted_physics_colliders

/-- Condition of the modified branch (source line 89). -/
abbrev modifiedFired (ev : Events) (id : Index) : Prop :=
  id ∈ ev.modified_positions ∨ id ∈ ev.modified_physics_colliders

/-- Condition of the removed branch (source line 95). -/
abbrev removedFired (ev : Events) (id : Index) : Prop :=
  id ∈ ev.removed_positions ∨ id ∈ ev.removed_physics_colliders

/-- The three lifecycle operations the driver can dispatch. -/
inductive Op
  | create
  | update
  | remove
deriving DecidableEq

/-- The operations the driver's loop body dispatches for an index, read off
the three independent `if` conditions at source lines 77, 89 and 95. -/
def opsFired (ev : Events) (id : Index) : List Op :=
  (if insertedFired ev id then [Op.create] else []) ++
  (if modifiedFired ev id then [Op.update] else []) ++
  (if removedFired ev id then [Op.remove] else [])

/-- The component stores joined by the driver: positions, optional
`PhysicsParent` relationships (as the parent entity's index), and
`PhysicsCollider` components. -/
structure Storages where
  positions : List (Index × Vector3)
  parents : List (Index × Index)
  colliders : List (Index × PhysicsCollider)

/-- The inserted branch of the loop body (source lines 77–86). -/
def insertedStage (ev : Events) (id : Index) (parent_entity : Option Index)
    (position : Vector3) (physics : Physics) (pc : PhysicsCollider) :
    Option (Physics × PhysicsCollider × List Op) :=
  if insertedFired ev id then
    (add_collider id parent_entity position physics pc).map
      (fun r => (r.1, r.2, [Op.create]))
  else some (physics, pc, [])

/-- The modified branch of the loop body (source lines 88–92). -/
def modifiedStage (ev : Events) (id : Index) (physics : Physics)
    (pc : PhysicsCollider) (ops : List Op) : Option (Physics × List Op) :=
  if modifiedFired ev id then
    (update_collider id physics pc).map (fun ph => (ph, ops ++ [Op.update]))
  else some (physics, ops)

/-- The removed branch of the loop body (source lines 94–98). -/
def removedStage (ev : Events) (id : Index) (physics : Physics)
    (ops : List Op) : Option (Physics × List Op) :=
  if removedFired ev id then
    (remove_collider id physics).map (fun ph => (ph, ops ++ [Op.remove]))
  else some (physics, ops)

/-- One iteration of the driver's join loop (source lines 63–99) for one
index: the index is processed only when both a position and a collider
component are present (the specs join skips it otherwise), and then the
inserted, modified and removed branches run in order as three independent
conditionals.  The possibly-mutated collider component is written back to
its storage, and the list of dispatched operations is reported. -/
def syncStep (ev : Events) (id : Index) :
    Physics × Storages → Option (Physics × Storages × List Op)
  | (physics, st) =>
      match AList.find id st.positions, AList.find id st.colliders with
      | some position, some pc0 =>
          (insertedStage ev id (AList.find id st.parents) position physics pc0).bind
            (fun r1 =>
              (modifiedStage ev id r1.1 r1.2.1 r1.2.2).bind (fun r2 =>
                (removedStage ev id r2.1 r2.2).map (fun r3 =>
                  (r3.1,
                   { st with colliders := AList.insert id r1.2.1 st.colliders },
                   r3.2))))
      | _, _ => some (physics, st, [])

/-- All indices mentioned by any of the six event sets. -/
def eventLists (ev : Events) : List Index :=
  ev.inserted_positions ++ ev.modified_positions ++ ev.removed_positions ++
  ev.inserted_physics_colliders ++ ev.modified_physics_colliders ++
  ev.removed_physics_colliders

/-- Membership in the six-way `BitSet` union of source lines 67–72. -/
abbrev inUnion (ev : Events) (id : Index) : Prop := id ∈ eventLists ev

/-- A strict upper bound on the indices in the union. -/
def maskBound (ev : Events) : ℕ := (eventLists ev).foldr max 0 + 1

/-- The indices the driver's join iterates, in ascending `BitSet` order:
indices in the six-way union that have both a position and a collider
component. -/
def affectedIds (ev : Events) (st : Storages) : List Index :=
  (List.range (maskBound ev)).filter (fun id =>
    decide (inUnion ev id) && (AList.find id st.positions).isSome &&
      (AList.find id st.colliders).isSome)

/-- Run the loop body over a list of indices, threading the physics
resource and the storages and collecting the dispatch trace. -/
def runIds (ev : Events) :
    List Index → Physics × Storages → Option (Physics × Storages × List (Index × Op))
  | [], s => some (s.1, s.2, [])
  | id :: rest, s =>
      match syncStep ev id s with
      | none => none
      | some (ph, st, ops) =>
          (runIds ev rest (ph, st)).map (fun r =>
            (r.1, r.2.1, ops.map (fun o => (id, o)) ++ r.2.2))

/-- One tick of `SyncCollidersToPhysicsSystem::run` (source lines 47–100),
taking the six extracted event sets as input. -/
def runTick (ev : Events) (st : Storages) (physics : Physics) :
    Option (Physics × Storages × List (Index × Op)) :=
  runIds ev (affectedIds ev st) (physics, st)

/-! ### Concrete fixtures

Small concrete states used by the counterexamples and witnesses below. -/

/-- An empty physics world whose engine accepts every construction. -/
def emptyWorld : World :=
  { bodies := [], colliders := [], nextHandle := 0, rejects := fun _ => false }

/-- An empty physics resource. -/
def emptyPhysics : Physics :=
  { world := emptyWorld, body_handles := [], collider_handles := [] }

/-- The collider component of the repository's test: a circle of radius 5
with no cached handle and zero offset. -/
def pcCircle5 : PhysicsCollider :=
  { shape := Shape.circle 5, offset_from_parent := ⟨0, 0, 0⟩, density := 1,
    material := 0, margin := 1, collision_groups := 0, linear_prediction := 1,
    angular_prediction := 1, sensor := false, handle := none }

/-- A tick in which index 0 appears in two of the six event sets, from two
different categories: its position was modified and its collider component
was inserted. -/
def evC1 : Events :=
  { inserted_positions := [], modified_positions := [0], removed_positions := [],
    inserted_physics_colliders := [0], modified_physics_colliders := [],
    removed_physics_colliders := [] }

/-- Storages holding a position and a collider component for index 0. -/
def stC1 : Storages :=
  { positions := [(0, ⟨1, 1, 1⟩)], parents := [], colliders := [(0, pcCircle5)] }

/-- A physics resource whose body-handle registry has a stale entry for
index 1 (body handle 5 no longer exists in the world) while index 2 owns a
live body (handle 9). -/
def phC3 : Physics :=
  { world := { bodies := [9], colliders := [], nextHandle := 0,
               rejects := fun _ => false },
    body_handles := [(1, 5), (2, 9)], collider_handles := [] }

/-- A physics resource with a registered collider handle for index 0 whose
collider the world no longer contains (cascading parent-body deletion). -/
def phC5 : Physics :=
  { world := emptyWorld, body_handles := [], collider_handles := [(0, 5)] }

/-- A tick carrying only a removal event for index 7 on the collider
store. -/
def evC6 : Events :=
  { inserted_positions := [], modified_positions := [], removed_positions := [],
    inserted_physics_colliders := [], modified_physics_colliders := [],
    removed_physics_colliders := [7] }

/-- Storages after entity 7's `PhysicsCollider` component was removed: the
position is still present, the collider component is gone. -/
def stC6 : Storages :=
  { positions := [(7, ⟨2, 3, 4⟩)], parents := [], colliders := [] }

/-- A physics resource still holding the collider handle registered for
index 7. -/
def phC6 : Physics :=
  { world := emptyWorld, body_handles := [], collider_handles := [(7, 3)] }

/-- A physics world whose engine refuses every construction. -/
def phRejecting : Physics :=
  { world := { bodies := [], colliders := [], nextHandle := 0,
               rejects := fun _ => true },
    body_handles := [], collider_handles := [] }

/-- The tick of the repository's test `tests::add_collider`: a fresh entity
at index 0 with a position and a collider component, both newly inserted,
and no parent relationship. -/
def evC9 : Events :=
  { inserted_positions := [0], modified_positions := [], removed_positions := [],
    inserted_physics_colliders := [0], modified_physics_colliders := [],
    removed_physics_colliders := [] }

/-- Storages of the repository's test: entity 0 at position `(1, 1, 1)`
with the circle-of-radius-5 collider. -/
def stC9 : Storages :=
  { positions := [(0, ⟨1, 1, 1⟩)], parents := [], colliders := [(0, pcCircle5)] }

/-- A tick carrying only removal events for index 0 (both stores). -/
def evC10 : Events :=
  { inserted_positions := [], modified_positions := [], removed_positions := [0],
    inserted_physics_colliders := [], modified_physics_colliders := [],
    removed_physics_colliders := [0] }

/-- Storages for the C10 witness: entity 0 still has both components, and
its collider component caches handle 5. -/
def stC10 : Storages :=
  { positions := [(0, ⟨1, 1, 1⟩)], parents := [],
    colliders := [(0, { pcCircle5 with handle := some 5 })] }

/-- A physics resource with collider handle 5 registered for index 0 but no
collider 5 left in the world (already destroyed with its parent body). -/
def phC10 : Physics :=
  { world := emptyWorld, body_handles := [], collider_handles := [(0, 5)] }

/-- A collider component with a non-zero offset from its parent. -/
def pcOffset : PhysicsCollider :=
  { pcCircle5 with offset_from_parent := ⟨10, 20, 30⟩ }

/-- A live collider datum stored under handle 5 for the update witness. -/
def cdC8 : ColliderData :=
  { shape := Shape.circle 5, translation := ⟨1, 1, 1⟩, density := 1,
    material := 0, margin := 1, collision_groups := 0, linear_prediction := 1,
    angular_prediction := 1, sensor := false, user_data := 0,
    parent := BodyPartHandle.ground }

/-- A physics resource whose world holds collider 5, registered for
index 0. -/
def phC8 : Physics :=
  { world := { bodies := [], colliders := [(5, cdC8)], nextHandle := 6,
               rejects := fun _ => false },
    body_handles := [], collider_handles := [(0, 5)] }

/-- A collider component caching handle 5 with a changed collision-group
bitmask. -/
def pcC8 : PhysicsCollider :=
  { pcCircle5 with handle := some 5, collision_groups := 42 }

/-! ### Definitions written from the claims' words -/

/-- The body a claim-level lookup considers usable: an entry in the
body-handle mapping whose body still exists in the world. -/
def liveBody (ph : Physics) (i : Index) : Option ℕ :=
  match AList.find i ph.body_handles with
  | some bh => if bh ∈ ph.world.bodies then some bh else none
  | none => none

/-- Parent resolution exactly as claim C3 words it: step (1) applies only
when the direct entry exists *and* its body is live; otherwise step (2)
consults the parent relationship, so a stale direct entry falls through to
the parent. -/
def resolve_parent_claim (id : Index) (pe : Option Index) (ph : Physics) :
    BodyPartHandle :=
  match liveBody ph id with
  | some b => BodyPartHandle.part b 0
  | none =>
      match pe with
      | some p =>
          match liveBody ph p with
          | some b => BodyPartHandle.part b 0
          | none => BodyPartHandle.ground
      | none => BodyPartHandle.ground

/-- The part reference a registered body handle yields: the body's part if
it still exists, ground otherwise. -/
def anchorOf (ph : Physics) (bh : ℕ) : BodyPartHandle :=
  if bh ∈ ph.world.bodies then BodyPartHandle.part bh 0 else BodyPartHandle.ground

/-- Parent resolution as amended for claim C3: a direct entry in the
body-handle mapping is authoritative — live body gives its part reference,
stale body gives ground *without consulting the parent relationship*; only
an absent entry falls back to the parent relationship, treated the same
way. -/
def resolve_parent_amended (id : Index) (pe : Option Index) (ph : Physics) :
    BodyPartHandle :=
  match AList.find id ph.body_handles,
        pe.bind (fun p => AList.find p ph.body_handles) with
  | some bh, _ => anchorOf ph bh
  | none, some bh => anchorOf ph bh
  | none, none => BodyPartHandle.ground

/-! ### Lemmas about the registry maps -/

theorem AList.find_erase_self {α : Type} (k : ℕ) (m : List (ℕ × α)) :
    AList.find k (AList.erase k m) = none := by
  induction m with
  | nil => rfl
  | cons p rest ih =>
      obtain ⟨k', v⟩ := p
      by_cases hk : k' = k
      · simp [AList.erase, hk, ih]
      · simp [AList.erase, AList.find, hk, ih]

theorem AList.find_erase_ne {α : Type} (j k : ℕ) (m : List (ℕ × α)) (h : j ≠ k) :
    AList.find j (AList.erase k m) = AList.find j m := by
  induction m with
  | nil => rfl
  | cons p rest ih =>
      obtain ⟨k', v⟩ := p
      simp only [AList.erase]
      by_cases hk : k' = k
      · rw [if_pos hk, ih]
        simp only [AList.find]
        rw [if_neg (show ¬ k' = j by omega)]
      · rw [if_neg hk]
        simp only [AList.find]
        rw [ih]

theorem AList.find_insert_self {α : Type} (k : ℕ) (v : α) (m : List (ℕ × α)) :
    AList.find k (AList.insert k v m) = some v := by
  simp [AList.insert, AList.find]

theorem AList.find_insert_ne {α : Type} (j k : ℕ) (v : α) (m : List (ℕ × α)) (h : j ≠ k) :
    AList.find j (AList.insert k v m) = AList.find j m := by
  have : k ≠ j := by omega
  simp [AList.insert, AList.find, this, find_erase_ne j k m h]

/-! ### Frame lemmas about the world and the operations -/

theorem remove_colliders_frame (w : World) (h : ℕ) (w' : World)
    (hrm : w.remove_colliders h = some w') :
    w'.bodies = w.bodies ∧ w'.nextHandle = w.nextHandle ∧
    w'.rejects = w.rejects ∧ w'.colliders = AList.erase h w.colliders := by
  unfold World.remove_colliders at hrm
  split at hrm
  · injection hrm with h'
    subst h'
    exact ⟨rfl, rfl, rfl, rfl⟩
  · cases hrm

theorem set_collision_groups_frame (w : World) (h : ℕ) (g : ℕ) :
    (w.set_collision_groups h g).bodies = w.bodies ∧
    (w.set_collision_groups h g).nextHandle = w.nextHandle ∧
    (w.set_collision_groups h g).rejects = w.rejects :=
  ⟨rfl, rfl, rfl⟩

/-- Lookup through a key-preserving pointwise update of an association
list (the shape of `World.set_collision_groups`): the entry at the target
key has the update applied, every other entry is untouched. -/
theorem find_map_update {α : Type} (f : α → α) (h h2 : ℕ) (m : List (ℕ × α)) :
    AList.find h2 (m.map (fun p => if p.1 = h then (p.1, f p.2) else p)) =
      (AList.find h2 m).map (fun v => if h2 = h then f v else v) := by
  induction m with
  | nil => rfl
  | cons p rest ih =>
      obtain ⟨k, v⟩ := p
      rw [List.map_cons]
      by_cases hk : k = h
      · have e1 : (if ((k, v) : ℕ × α).1 = h then (((k, v) : ℕ × α).1, f v)
            else ((k, v) : ℕ × α)) = (k, f v) := by simp [hk]
        rw [e1]
        by_cases h2k : k = h2
        · subst h2k
          simp [AList.find, hk]
        · simp [AList.find, h2k, ih]
      · have e1 : (if ((k, v) : ℕ × α).1 = h then (((k, v) : ℕ × α).1, f v)
            else ((k, v) : ℕ × α)) = (k, v) := by simp [hk]
        rw [e1]
        by_cases h2k : k = h2
        · subst h2k
          simp [AList.find, hk]
        · simp [AList.find, h2k, ih]

/-- Parent resolution depends only on the body-handle registry and the set
of live bodies. -/
theorem resolve_parent_congr (id : Index) (pe : Option Index) (ph1 ph2 : Physics)
    (hb : ph1.body_handles = ph2.body_handles)
    (hw : ph1.world.bodies = ph2.world.bodies) :
    resolve_parent id pe ph1 = resolve_parent id pe ph2 := by
  unfold resolve_parent World.rigid_body
  rw [hb, hw]

theorem build_with_parent_spec (w : World) (cd : ColliderData) (w' : World) (h : ℕ)
    (hb : w.build_with_parent cd = some (w', h)) :
    w'.bodies = w.bodies ∧ w'.rejects = w.rejects ∧ h = w.nextHandle ∧
    w'.colliders = (w.nextHandle, cd) :: w.colliders := by
  unfold World.build_with_parent at hb
  split at hb
  · cases hb
  · injection hb with hb1
    injection hb1 with hw hh
    subst hh
    rw [← hw]
    exact ⟨rfl, rfl, rfl, rfl⟩

theorem staleCleanup_spec (id : Index) (ph ph1 : Physics)
    (h : staleCleanup id ph = some ph1) :
    ph1.body_handles = ph.body_handles ∧ ph1.world.bodies = ph.world.bodies ∧
    ph1.world.rejects = ph.world.rejects ∧
    ph1.world.nextHandle = ph.world.nextHandle ∧
    AList.find id ph1.collider_handles = none ∧
    (∀ j, j ≠ id → AList.find j ph1.collider_handles = AList.find j ph.collider_handles) := by
  unfold staleCleanup at h
  cases hf : AList.find id ph.collider_handles with
  | none =>
      rw [hf] at h
      injection h with h
      subst h
      exact ⟨rfl, rfl, rfl, rfl, hf, fun j _ => rfl⟩
  | some hdl =>
      rw [hf] at h
      dsimp only at h
      cases hrm : ph.world.remove_colliders hdl with
      | none =>
          rw [hrm] at h
          cases h
      | some w =>
          rw [hrm] at h
          rw [Option.map_some'] at h
          injection h with h
          subst h
          obtain ⟨hb, hn, hr, _⟩ := remove_colliders_frame ph.world hdl w hrm
          exact ⟨rfl, hb, hr, hn, AList.find_erase_self id ph.collider_handles,
                 fun j hj => AList.find_erase_ne j id ph.collider_handles hj⟩

theorem add_rejects_none (id : Index) (pe : Option Index) (position : Vector3)
    (ph : Physics) (pc : PhysicsCollider)
    (hrej : ph.world.rejects pc.shape = true) :
    add_collider id pe position ph pc = none := by
  unfold add_collider
  cases hst : staleCleanup id ph with
  | none => rw [Option.none_bind]
  | some ph1 =>
      obtain ⟨_, _, hr, _, _, _⟩ := staleCleanup_spec id ph ph1 hst
      have hb : ph1.world.build_with_parent
          (collider_desc id position pc (resolve_parent id pe ph1)) = none := by
        unfold World.build_with_parent
        have hsh : ph1.world.rejects (collider_desc id position pc
            (resolve_parent id pe ph1)).shape = true := by
          show ph1.world.rejects pc.shape = true
          rw [hr]
          exact hrej
        rw [hsh]
        rfl
      rw [Option.some_bind, hb, Option.map_none']

theorem add_some_spec (id : Index) (pe : Option Index) (position : Vector3)
    (ph : Physics) (pc : PhysicsCollider) (ph' : Physics) (pc' : PhysicsCollider)
    (hadd : add_collider id pe position ph pc = some (ph', pc')) :
    ∃ h, pc' = { pc with handle := some h } ∧
      AList.find id ph'.collider_handles = some h ∧
      (∀ j, j ≠ id → AList.find j ph'.collider_handles = AList.find j ph.collider_handles) ∧
      ph'.body_handles = ph.body_handles ∧
      ph'.world.bodies = ph.world.bodies ∧
      ph'.world.rejects = ph.world.rejects := by
  unfold add_collider at hadd
  cases hst : staleCleanup id ph with
  | none =>
      rw [hst, Option.none_bind] at hadd
      cases hadd
  | some ph1 =>
      rw [hst, Option.some_bind] at hadd
      obtain ⟨hbh, hbo, hr, _, _, hfr⟩ := staleCleanup_spec id ph ph1 hst
      cases hb : ph1.world.build_with_parent
          (collider_desc id position pc (resolve_parent id pe ph1)) with
      | none =>
          rw [hb, Option.map_none'] at hadd
          cases hadd
      | some r =>
          obtain ⟨w, handle⟩ := r
          rw [hb, Option.map_some'] at hadd
          injection hadd with hadd
          injection hadd with h1 h2
          subst h2
          obtain ⟨hwb, hwr, _, _⟩ := build_with_parent_spec ph1.world _ w handle hb
          refine ⟨handle, rfl, ?_, ?_, ?_, ?_, ?_⟩
          · rw [← h1]
            exact AList.find_insert_self id handle ph1.collider_handles
          · intro j hj
            rw [← h1]
            have e1 : AList.find j (AList.insert id handle ph1.collider_handles) =
                AList.find j ph1.collider_handles :=
              AList.find_insert_ne j id handle ph1.collider_handles hj
            rw [e1]
            exact hfr j hj
          · rw [← h1]
            exact hbh
          · rw [← h1]
            show w.bodies = ph.world.bodies
            rw [hwb]
            exact hbo
          · rw [← h1]
            show w.rejects = ph.world.rejects
            rw [hwr]
            exact hr

theorem update_some_spec (id : Index) (ph : Physics) (pc : PhysicsCollider) (h : ℕ)
    (hh : pc.handle = some h) :
    update_collider id ph pc =
      some { ph with world := ph.world.set_collision_groups h pc.collision_groups } := by
  unfold update_collider
  rw [hh]

theorem update_frames (id : Index) (ph : Physics) (pc : PhysicsCollider) (ph2 : Physics)
    (h : update_collider id ph pc = some ph2) :
    ph2.collider_handles = ph.collider_handles ∧ ph2.body_handles = ph.body_handles ∧
    ph2.world.bodies = ph.world.bodies ∧ ph2.world.rejects = ph.world.rejects := by
  unfold update_collider at h
  cases hh : pc.handle with
  | none =>
      rw [hh] at h
      cases h
  | some hc =>
      rw [hh] at h
      dsimp only at h
      injection h with h
      subst h
      exact ⟨rfl, rfl, rfl, rfl⟩

theorem remove_spec (id : Index) (ph : Physics) :
    ∃ ph2, remove_collider id ph = some ph2 ∧
      AList.find id ph2.collider_handles = none ∧
      (∀ j, j ≠ id → AList.find j ph2.collider_handles = AList.find j ph.collider_handles) ∧
      ph2.body_handles = ph.body_handles ∧
      ph2.world.bodies = ph.world.bodies ∧
      ph2.world.rejects = ph.world.rejects ∧
      (AList.find id ph.collider_handles = none → ph2 = ph) ∧
      (∀ h, AList.find id ph.collider_handles = some h →
        ph2.world = (if (ph.world.collider h).isSome
                     then { ph.world with colliders := AList.erase h ph.world.colliders }
                     else ph.world)) := by
  unfold remove_collider
  cases hf : AList.find id ph.collider_handles with
  | none =>
      refine ⟨ph, rfl, hf, fun j _ => rfl, rfl, rfl, rfl, fun _ => rfl, fun h hh => ?_⟩
      cases hh
  | some hdl =>
      dsimp only
      by_cases hex : (ph.world.collider hdl).isSome = true
      · have hrm : ph.world.remove_colliders hdl =
            some { ph.world with colliders := AList.erase hdl ph.world.colliders } := by
          unfold World.remove_colliders
          rw [if_pos hex]
        rw [if_pos hex, hrm, Option.map_some']
        refine ⟨_, rfl, AList.find_erase_self id ph.collider_handles,
                fun j hj => AList.find_erase_ne j id ph.collider_handles hj,
                rfl, rfl, rfl, fun hn => ?_, fun h hh => ?_⟩
        · cases hn
        · injection hh with hh
          subst hh
          rw [if_pos hex]
      · rw [if_neg hex]
        refine ⟨_, rfl, AList.find_erase_self id ph.collider_handles,
                fun j hj => AList.find_erase_ne j id ph.collider_handles hj,
                rfl, rfl, rfl, fun hn => ?_, fun h hh => ?_⟩
        · cases hn
        · injection hh with hh
          subst hh
          rw [if_neg hex]

theorem insertedStage_rejects (ev : Events) (id : Index) (pe : Option Index)
    (position : Vector3) (ph : Physics) (pc : PhysicsCollider)
    (hf : insertedFired ev id) (hrej : ph.world.rejects pc.shape = true) :
    insertedStage ev id pe position ph pc = none := by
  unfold insertedStage
  rw [if_pos hf, add_rejects_none id pe position ph pc hrej, Option.map_none']

theorem insertedStage_spec (ev : Events) (id : Index) (pe : Option Index)
    (position : Vector3) (ph : Physics) (pc : PhysicsCollider)
    (ph1 : Physics) (pc1 : PhysicsCollider) (ops1 : List Op)
    (h : insertedStage ev id pe position ph pc = some (ph1, pc1, ops1)) :
    ph1.world.rejects = ph.world.rejects ∧
    ph1.body_handles = ph.body_handles ∧
    ph1.world.bodies = ph.world.bodies ∧
    ops1 = (if insertedFired ev id then [Op.create] else []) ∧
    (insertedFired ev id → ∃ hd, pc1 = { pc with handle := some hd }) ∧
    (¬ insertedFired ev id → ph1 = ph ∧ pc1 = pc) := by
  unfold insertedStage at h
  by_cases hf : insertedFired ev id
  · rw [if_pos hf] at h
    cases ha : add_collider id pe position ph pc with
    | none =>
        rw [ha, Option.map_none'] at h
        cases h
    | some r =>
        obtain ⟨pha, pca⟩ := r
        rw [ha, Option.map_some'] at h
        injection h with h
        injection h with h1 h23
        injection h23 with h2 h3
        subst h1
        subst h2
        subst h3
        obtain ⟨hd, hpc, _, _, hbh, hbo, hr⟩ :=
          add_some_spec id pe position ph pc pha pca ha
        exact ⟨hr, hbh, hbo, by rw [if_pos hf], fun _ => ⟨hd, hpc⟩,
               fun hnf => absurd hf hnf⟩
  · rw [if_neg hf] at h
    injection h with h
    injection h with h1 h23
    injection h23 with h2 h3
    subst h1
    subst h2
    subst h3
    exact ⟨rfl, rfl, rfl, by rw [if_neg hf], fun hff => absurd hff hf,
           fun _ => ⟨rfl, rfl⟩⟩

theorem modifiedStage_spec (ev : Events) (id : Index) (ph : Physics)
    (pc : PhysicsCollider) (ops : List Op) (ph2 : Physics) (ops2 : List Op)
    (h : modifiedStage ev id ph pc ops = some (ph2, ops2)) :
    ph2.collider_handles = ph.collider_handles ∧
    ph2.body_handles = ph.body_handles ∧
    ph2.world.bodies = ph.world.bodies ∧
    ph2.world.rejects = ph.world.rejects ∧
    ops2 = ops ++ (if modifiedFired ev id then [Op.update] else []) := by
  unfold modifiedStage at h
  by_cases hf : modifiedFired ev id
  · rw [if_pos hf] at h
    cases hu : update_collider id ph pc with
    | none =>
        rw [hu, Option.map_none'] at h
        cases h
    | some phu =>
        rw [hu, Option.map_some'] at h
        injection h with h
        injection h with h1 h2
        subst h1
        subst h2
        obtain ⟨hc, hbh, hbo, hr⟩ := update_frames id ph pc phu hu
        exact ⟨hc, hbh, hbo, hr, by rw [if_pos hf]⟩
  · rw [if_neg hf] at h
    injection h with h
    injection h with h1 h2
    subst h1
    subst h2
    refine ⟨rfl, rfl, rfl, rfl, ?_⟩
    rw [if_neg hf, List.append_nil]

theorem removedStage_spec (ev : Events) (id : Index) (ph : Physics) (ops : List Op) :
    ∃ ph3 ops3, removedStage ev id ph ops = some (ph3, ops3) ∧
      ph3.body_handles = ph.body_handles ∧
      ph3.world.bodies = ph.world.bodies ∧
      ph3.world.rejects = ph.world.rejects ∧
      ops3 = ops ++ (if removedFired ev id then [Op.remove] else []) ∧
      (removedFired ev id → AList.find id ph3.collider_handles = none ∧
        (∀ j, j ≠ id → AList.find j ph3.collider_handles = AList.find j ph.collider_handles)) ∧
      (¬ removedFired ev id → ph3 = ph) := by
  unfold removedStage
  by_cases hf : removedFired ev id
  · obtain ⟨ph2, hrc, hfind, hfr, hbh, hbo, hr, _, _⟩ := remove_spec id ph
    rw [if_pos hf, hrc, Option.map_some']
    exact ⟨ph2, ops ++ [Op.remove], rfl, hbh, hbo, hr, by rw [if_pos hf],
           fun _ => ⟨hfind, hfr⟩, fun hnf => absurd hf hnf⟩
  · rw [if_neg hf]
    refine ⟨ph, ops, rfl, rfl, rfl, rfl, ?_, fun hff => absurd hff hf, fun _ => rfl⟩
    rw [if_neg hf, List.append_nil]

theorem syncStep_skip (ev : Events) (j : Index) (ph : Physics) (st : Storages)
    (h : AList.find j st.positions = none ∨ AList.find j st.colliders = none) :
    syncStep ev j (ph, st) = some (ph, st, []) := by
  simp only [syncStep]
  cases hp : AList.find j st.positions with
  | none => rfl
  | some position =>
      cases hc : AList.find j st.colliders with
      | none => rfl
      | some pc0 =>
          rcases h with h | h
          · rw [hp] at h
            cases h
          · rw [hc] at h
            cases h

theorem syncStep_some_spec (ev : Events) (j : Index) (ph : Physics) (st : Storages)
    (ph' : Physics) (st' : Storages) (ops : List Op)
    (h : syncStep ev j (ph, st) = some (ph', st', ops)) :
    st'.positions = st.positions ∧ st'.parents = st.parents ∧
    (∀ i, i ≠ j → AList.find i st'.colliders = AList.find i st.colliders) ∧
    ph'.world.rejects = ph.world.rejects ∧
    ph'.body_handles = ph.body_handles ∧
    ph'.world.bodies = ph.world.bodies ∧
    (AList.find j st.positions ≠ none → AList.find j st.colliders ≠ none →
      ops = opsFired ev j) ∧
    (∀ position pc, AList.find j st.positions = some position →
      AList.find j st.colliders = some pc → insertedFired ev j →
      ∃ hd, AList.find j st'.colliders = some { pc with handle := some hd }) := by
  cases hp : AList.find j st.positions with
  | none =>
      have hskip := (syncStep_skip ev j ph st (Or.inl hp)).symm.trans h
      injection hskip with hskip
      injection hskip with h1 h23
      injection h23 with h2 h3
      subst h1
      subst h2
      subst h3
      refine ⟨rfl, rfl, fun i _ => rfl, rfl, rfl, rfl,
              fun hne _ => absurd rfl hne, fun position pc hp' _ _ => ?_⟩
      cases hp'
  | some position =>
      cases hc : AList.find j st.colliders with
      | none =>
          have hskip := (syncStep_skip ev j ph st (Or.inr hc)).symm.trans h
          injection hskip with hskip
          injection hskip with h1 h23
          injection h23 with h2 h3
          subst h1
          subst h2
          subst h3
          refine ⟨rfl, rfl, fun i _ => rfl, rfl, rfl, rfl,
                  fun _ hne => absurd rfl hne, fun position' pc hp' hc' _ => ?_⟩
          cases hc'
      | some pc0 =>
          simp only [syncStep] at h
          rw [hp, hc] at h
          dsimp only at h
          cases h1 : insertedStage ev j (AList.find j st.parents) position ph pc0 with
          | none =>
              rw [h1, Option.none_bind] at h
              cases h
          | some r1 =>
              obtain ⟨ph1, pc1, ops1⟩ := r1
              rw [h1, Option.some_bind] at h
              dsimp only at h
              cases h2 : modifiedStage ev j ph1 pc1 ops1 with
              | none =>
                  rw [h2, Option.none_bind] at h
                  cases h
              | some r2 =>
                  obtain ⟨ph2, ops2⟩ := r2
                  rw [h2, Option.some_bind] at h
                  dsimp only at h
                  cases h3 : removedStage ev j ph2 ops2 with
                  | none =>
                      rw [h3, Option.map_none'] at h
                      cases h
                  | some r3 =>
                      obtain ⟨ph3, ops3⟩ := r3
                      rw [h3, Option.map_some'] at h
                      injection h with h
                      injection h with ha hbc
                      injection hbc with hb hc'
                      subst ha
                      subst hc'
                      obtain ⟨hr1, hbh1, hbo1, hops1, hcr1, _⟩ :=
                        insertedStage_spec ev j (AList.find j st.parents) position ph pc0
                          ph1 pc1 ops1 h1
                      obtain ⟨hch2, hbh2, hbo2, hr2, hops2⟩ :=
                        modifiedStage_spec ev j ph1 pc1 ops1 ph2 ops2 h2
                      obtain ⟨ph3', ops3', h3', hbh3, hbo3, hr3, hops3, _, _⟩ :=
                        removedStage_spec ev j ph2 ops2
                      rw [h3] at h3'
                      injection h3' with h3'
                      injection h3' with he1 he2
                      subst he1
                      subst he2
                      subst hb
                      refine ⟨rfl, rfl, ?_, ?_, ?_, ?_, ?_, ?_⟩
                      · intro i hi
                        exact AList.find_insert_ne i j pc1 st.colliders hi
                      · rw [hr3, hr2, hr1]
                      · rw [hbh3, hbh2, hbh1]
                      · rw [hbo3, hbo2, hbo1]
                      · intro _ _
                        rw [hops3, hops2, hops1]
                        unfold opsFired
                        rw [List.append_assoc]
                      · intro position' pc hp' hc' hf
                        injection hc' with hc'
                        subst hc'
                        obtain ⟨hd, hpc1⟩ := hcr1 hf
                        subst hpc1
                        exact ⟨hd, AList.find_insert_self j _ st.colliders⟩

theorem syncStep_rejects (ev : Events) (j : Index) (ph : Physics) (st : Storages)
    (position : Vector3) (pc : PhysicsCollider)
    (hp : AList.find j st.positions = some position)
    (hc : AList.find j st.colliders = some pc)
    (hf : insertedFired ev j)
    (hrej : ph.world.rejects pc.shape = true) :
    syncStep ev j (ph, st) = none := by
  simp only [syncStep]
  rw [hp, hc]
  dsimp only
  rw [insertedStage_rejects ev j (AList.find j st.parents) position ph pc hf hrej,
      Option.none_bind]

theorem runIds_frame (ev : Events) (L : List Index) (s : Physics × Storages)
    (phR : Physics) (stR : Storages) (tr : List (Index × Op))
    (h : runIds ev L s = some (phR, stR, tr)) :
    stR.positions = s.2.positions ∧
    (∀ i, i ∉ L → AList.find i stR.colliders = AList.find i s.2.colliders) ∧
    phR.world.rejects = s.1.world.rejects := by
  induction L generalizing s tr with
  | nil =>
      simp only [runIds] at h
      injection h with h
      injection h with h1 h23
      injection h23 with h2 h3
      subst h1
      subst h2
      exact ⟨rfl, fun i _ => rfl, rfl⟩
  | cons j rest ih =>
      obtain ⟨ph0, st0⟩ := s
      simp only [runIds] at h
      cases hs : syncStep ev j (ph0, st0) with
      | none =>
          rw [hs] at h
          cases h
      | some r =>
          obtain ⟨ph1, st1, ops⟩ := r
          rw [hs] at h
          dsimp only at h
          cases hr : runIds ev rest (ph1, st1) with
          | none =>
              rw [hr, Option.map_none'] at h
              cases h
          | some r2 =>
              obtain ⟨ph2, st2, tr2⟩ := r2
              rw [hr, Option.map_some'] at h
              injection h with h
              injection h with ha hbc
              injection hbc with hb htr
              subst ha
              subst hb
              obtain ⟨hsp, _, hsfr, hsrj, _, _, _, _⟩ :=
                syncStep_some_spec ev j ph0 st0 ph1 st1 ops hs
              obtain ⟨hpos, hfr, hrj⟩ := ih (ph1, st1) tr2 hr
              refine ⟨?_, ?_, ?_⟩
              · rw [hpos]
                exact hsp
              · intro i hi
                have hij : i ≠ j := fun e => hi (e ▸ List.mem_cons_self j rest)
                have hirest : i ∉ rest := fun e => hi (List.mem_cons_of_mem j e)
                rw [hfr i hirest, hsfr i hij]
              · rw [hrj]
                exact hsrj

theorem runIds_rejects (ev : Events) (L : List Index) (s : Physics × Storages)
    (id : Index) (pc : PhysicsCollider)
    (hmem : id ∈ L)
    (hpos : AList.find id s.2.positions ≠ none)
    (hpc : AList.find id s.2.colliders = some pc)
    (hf : insertedFired ev id)
    (hrej : s.1.world.rejects pc.shape = true) :
    runIds ev L s = none := by
  induction L generalizing s pc with
  | nil => cases hmem
  | cons j rest ih =>
      obtain ⟨ph0, st0⟩ := s
      simp only [runIds]
      by_cases hj : j = id
      · subst hj
        obtain ⟨position, hpos'⟩ : ∃ p, AList.find j st0.positions = some p := by
          cases hq : AList.find j st0.positions with
          | none => exact absurd hq hpos
          | some p => exact ⟨p, rfl⟩
        rw [syncStep_rejects ev j ph0 st0 position pc hpos' hpc hf hrej]
      · cases hs : syncStep ev j (ph0, st0) with
        | none => rfl
        | some r =>
            obtain ⟨ph1, st1, ops⟩ := r
            dsimp only
            obtain ⟨hsp, _, hsfr, hsrj, _, _, _, _⟩ :=
              syncStep_some_spec ev j ph0 st0 ph1 st1 ops hs
            have hmem' : id ∈ rest := by
              rcases List.mem_cons.mp hmem with he | he
              · exact absurd he.symm hj
              · exact he
            have hres : runIds ev rest (ph1, st1) = none := by
              apply ih (ph1, st1) pc hmem'
              · show AList.find id st1.positions ≠ none
                rw [hsp]
                exact hpos
              · show AList.find id st1.colliders = some pc
                rw [hsfr id (fun e => hj e.symm)]
                exact hpc
              · show ph1.world.rejects pc.shape = true
                rw [hsrj]
                exact hrej
            rw [hres, Option.map_none']

theorem runIds_created (ev : Events) (L : List Index) (s : Physics × Storages)
    (phR : Physics) (stR : Storages) (tr : List (Index × Op))
    (id : Index) (position : Vector3) (pc : PhysicsCollider)
    (hnd : L.Nodup)
    (h : runIds ev L s = some (phR, stR, tr))
    (hmem : id ∈ L)
    (hpos : AList.find id s.2.positions = some position)
    (hpc : AList.find id s.2.colliders = some pc)
    (hf : insertedFired ev id) :
    ∃ pcR hd, AList.find id stR.colliders = some pcR ∧ pcR.handle = some hd := by
  induction L generalizing s position pc tr with
  | nil => cases hmem
  | cons j rest ih =>
      obtain ⟨ph0, st0⟩ := s
      simp only [runIds] at h
      cases hs : syncStep ev j (ph0, st0) with
      | none =>
          rw [hs] at h
          cases h
      | some r =>
          obtain ⟨ph1, st1, ops⟩ := r
          rw [hs] at h
          dsimp only at h
          cases hr : runIds ev rest (ph1, st1) with
          | none =>
              rw [hr, Option.map_none'] at h
              cases h
          | some r2 =>
              obtain ⟨ph2, st2, tr2⟩ := r2
              rw [hr, Option.map_some'] at h
              injection h with h
              injection h with ha hbc
              injection hbc with hb htr
              subst ha
              subst hb
              obtain ⟨hsp, _, hsfr, _, _, _, _, hscr⟩ :=
                syncStep_some_spec ev j ph0 st0 ph1 st1 ops hs
              by_cases hj : j = id
              · subst hj
                obtain ⟨hd, hentry⟩ := hscr position pc hpos hpc hf
                have hnotin : j ∉ rest := (List.nodup_cons.mp hnd).1
                obtain ⟨_, hfr2, _⟩ := runIds_frame ev rest (ph1, st1) ph2 st2 tr2 hr
                refine ⟨{ pc with handle := some hd }, hd, ?_, rfl⟩
                rw [hfr2 j hnotin]
                exact hentry
              · have hmem' : id ∈ rest := by
                  rcases List.mem_cons.mp hmem with he | he
                  · exact absurd he.symm hj
                  · exact he
                have hnd' : rest.Nodup := (List.nodup_cons.mp hnd).2
                apply ih (ph1, st1) tr2 position pc hnd' hr hmem'
                · show AList.find id st1.positions = some position
                  rw [hsp]
                  exact hpos
                · show AList.find id st1.colliders = some pc
                  rw [hsfr id (fun e => hj e.symm)]
                  exact hpc

theorem affectedIds_nodup (ev : Events) (st : Storages) : (affectedIds ev st).Nodup :=
  (List.nodup_range (maskBound ev)).filter _

theorem affectedIds_mem (ev : Events) (st : Storages) (id : Index)
    (h : id ∈ affectedIds ev st) :
    (AList.find id st.positions).isSome = true ∧
    (AList.find id st.colliders).isSome = true := by
  obtain ⟨_, hp⟩ := List.mem_filter.mp h
  simp only [Bool.and_eq_true] at hp
  exact ⟨hp.1.2, hp.2⟩

/-! ### Claim theorems -/

/-- Claim C1, counterexample: index 0 appears in two of the six event sets
(modified positions and inserted colliders), yet the driver's loop body
dispatches *two* operations for it in that tick — create and then update —
not exactly one chosen by priority: the three branch conditionals at source
lines 77, 89 and 95 are independent `if`s, not an `else`-chain. -/
theorem C1_counterexample :
    (0 : Index) ∈ evC1.modified_positions ∧
    (0 : Index) ∈ evC1.inserted_physics_colliders ∧
    (syncStep evC1 0 (emptyPhysics, stC1)).map (fun r => r.2.2) =
      some [Op.create, Op.update] := by
  decide

/-- Claim C1 as amended: for every index reaching the dispatch (both joined
components present), the driver invokes one operation per event *category*
that contains the index — create when either inserted set contains it, then
update when either modified set contains it, then remove when either
removed set contains it — so between one and three operations per tick, in
that fixed order, rather than exactly one chosen by priority. -/
theorem C1_amended_dispatch (ev : Events) (id : Index) (ph : Physics)
    (st : Storages) (ph' : Physics) (st' : Storages) (ops : List Op)
    (h : syncStep ev id (ph, st) = some (ph', st', ops))
    (hp : AList.find id st.positions ≠ none)
    (hc : AList.find id st.colliders ≠ none) :
    ops = opsFired ev id :=
  (syncStep_some_spec ev id ph st ph' st' ops h).2.2.2.2.2.2.1 hp hc

theorem C1_amended_dispatch_witness :
    (syncStep evC1 0 (emptyPhysics, stC1)).map (fun r => r.2.2) =
      some (opsFired evC1 0) := by
  obtain ⟨r, hr⟩ : ∃ r, syncStep evC1 0 (emptyPhysics, stC1) = some r := ⟨_, rfl⟩
  rw [hr]
  exact congrArg some
    (C1_amended_dispatch evC1 0 emptyPhysics stC1 r.1 r.2.1 r.2.2 hr
      (by decide) (by decide))

/-- Claim C2: whenever the create operation succeeds, the new collider's
translation is `position + descriptor offset` (component-wise) when parent
resolution yielded the ground sentinel, and the descriptor offset alone —
independent of the position — when a real parent body part was resolved. -/
theorem C2_create_translation (id : Index) (pe : Option Index) (position : Vector3)
    (ph : Physics) (pc : PhysicsCollider) (ph' : Physics) (pc' : PhysicsCollider)
    (hadd : add_collider id pe position ph pc = some (ph', pc')) :
    ∃ hd cd, pc'.handle = some hd ∧ ph'.world.collider hd = some cd ∧
      cd.translation =
        (if (resolve_parent id pe ph).is_ground then
          (⟨position.x + pc.offset_from_parent.x,
            position.y + pc.offset_from_parent.y,
            position.z + pc.offset_from_parent.z⟩ : Vector3)
        else pc.offset_from_parent) := by
  unfold add_collider at hadd
  cases hst : staleCleanup id ph with
  | none =>
      rw [hst, Option.none_bind] at hadd
      cases hadd
  | some ph1 =>
      rw [hst, Option.some_bind] at hadd
      obtain ⟨hbh, hbo, _, _, _, _⟩ := staleCleanup_spec id ph ph1 hst
      cases hb : ph1.world.build_with_parent
          (collider_desc id position pc (resolve_parent id pe ph1)) with
      | none =>
          rw [hb, Option.map_none'] at hadd
          cases hadd
      | some r =>
          obtain ⟨w, handle⟩ := r
          rw [hb, Option.map_some'] at hadd
          injection hadd with hadd
          injection hadd with h1 h2
          subst h2
          obtain ⟨_, _, hnh, hcols⟩ := build_with_parent_spec ph1.world _ w handle hb
          subst hnh
          have hres : resolve_parent id pe ph1 = resolve_parent id pe ph :=
            resolve_parent_congr id pe ph1 ph hbh hbo
          refine ⟨ph1.world.nextHandle,
                  collider_desc id position pc (resolve_parent id pe ph1),
                  rfl, ?_, ?_⟩
          · rw [← h1]
            show w.collider ph1.world.nextHandle = _
            unfold World.collider
            rw [hcols]
            simp [AList.find]
          · show (if (resolve_parent id pe ph1).is_ground then _ else _) = _
            rw [hres]

theorem C2_create_translation_witness :
    ∃ r, add_collider 5 none ⟨1, 2, 3⟩ emptyPhysics pcOffset = some r ∧
      ∃ hd cd, r.2.handle = some hd ∧ r.1.world.collider hd = some cd ∧
        cd.translation = (⟨11, 22, 33⟩ : Vector3) := by
  obtain ⟨r, hr⟩ : ∃ r, add_collider 5 none ⟨1, 2, 3⟩ emptyPhysics pcOffset = some r :=
    ⟨_, rfl⟩
  obtain ⟨hd, cd, hh, hc, ht⟩ :=
    C2_create_translation 5 none ⟨1, 2, 3⟩ emptyPhysics pcOffset r.1 r.2 hr
  refine ⟨r, hr, hd, cd, hh, hc, ?_⟩
  rw [ht]
  decide

/-- Claim C3, counterexample: with a stale direct entry (index 1 maps to
body handle 5, which no longer exists) and a live parent body (index 2 maps
to live body 9), the claim's three-level chain would return body 9's part
reference, but the code returns ground: a stale direct entry does *not*
fall through to the parent relationship. -/
theorem C3_counterexample :
    AList.find 1 phC3.body_handles = some 5 ∧
    phC3.world.rigid_body 5 = none ∧
    AList.find 2 phC3.body_handles = some 9 ∧
    (phC3.world.rigid_body 9).isSome = true ∧
    resolve_parent_claim 1 (some 2) phC3 = BodyPartHandle.part 9 0 ∧
    resolve_parent 1 (some 2) phC3 = BodyPartHandle.ground := by
  decide

/-- Claim C3 as amended: a direct entry in the body-handle mapping is
authoritative — its live body gives the part reference, a stale body gives
ground without consulting the parent relationship; only when the index has
no entry is the parent relationship's entry consulted, under the same
liveness check; otherwise ground.  No error is raised in any case. -/
theorem C3_amended_resolution (id : Index) (pe : Option Index) (ph : Physics) :
    resolve_parent id pe ph = resolve_parent_amended id pe ph := by
  unfold resolve_parent resolve_parent_amended anchorOf World.rigid_body
  cases hd : AList.find id ph.body_handles with
  | some bh =>
      dsimp only
      by_cases hm : bh ∈ ph.world.bodies
      · rw [if_pos hm, if_pos hm]
        rfl
      · rw [if_neg hm, if_neg hm]
        rfl
  | none =>
      cases pe with
      | none => rfl
      | some p =>
          rw [Option.some_bind]
          dsimp only
          cases hp : AList.find p ph.body_handles with
          | none => rfl
          | some bh =>
              dsimp only
              by_cases hm : bh ∈ ph.world.bodies
              · rw [if_pos hm, if_pos hm]
                rfl
              · rw [if_neg hm, if_neg hm]
                rfl

theorem find_set_groups (m : List (ℕ × ColliderData)) (h h2 g : ℕ) :
    AList.find h2 (m.map (fun p =>
        if p.1 = h then (p.1, { p.2 with collision_groups := g }) else p)) =
      (AList.find h2 m).map (fun cd =>
        if h2 = h then { cd with collision_groups := g } else cd) :=
  find_map_update (fun cd => { cd with collision_groups := g }) h h2 m

/-- Claim C4: the remove operation never fails; with no registered handle
it is a no-op, with a registered handle it always deregisters the handle,
and it touches the physics world only when the collider still exists there
(the existence check guards the removal call). -/
theorem C4_remove_contract (id : Index) (ph : Physics) :
    ∃ ph2, remove_collider id ph = some ph2 ∧
      AList.find id ph2.collider_handles = none ∧
      (∀ j, j ≠ id → AList.find j ph2.collider_handles = AList.find j ph.collider_handles) ∧
      (AList.find id ph.collider_handles = none → ph2 = ph) ∧
      (∀ h, AList.find id ph.collider_handles = some h →
        ph2.world = (if (ph.world.collider h).isSome
                     then { ph.world with colliders := AList.erase h ph.world.colliders }
                     else ph.world)) := by
  obtain ⟨ph2, h1, h2, h3, _, _, _, h7, h8⟩ := remove_spec id ph
  exact ⟨ph2, h1, h2, h3, h7, h8⟩

theorem C4_remove_contract_witness :
    ∃ ph2, remove_collider 0 phC5 = some ph2 ∧
      AList.find 0 ph2.collider_handles = none ∧
      AList.find 1 ph2.collider_handles = AList.find 1 phC5.collider_handles ∧
      ph2.world = phC5.world := by
  obtain ⟨ph2, h1, h2, h3, _, h5⟩ := C4_remove_contract 0 phC5
  refine ⟨ph2, h1, h2, h3 1 (by decide), ?_⟩
  rw [h5 5 (by decide),
      if_neg (by decide : ¬ (phC5.world.collider 5).isSome = true)]

/-- Claim C5 (code bug): the stale-handle recovery inside the create
operation does *not* re-verify existence before force-removing the old
collider — at a state where index 0 has a registered handle whose collider
the world no longer contains (the cascading-deletion scenario), the insert
path issues a removal for the vanished handle, which is the nphysics panic
the code's own comment in `remove_collider` warns about (modelled as
`none`). -/
theorem C5_stale_cleanup_unguarded :
    AList.find 0 phC5.collider_handles = some 5 ∧
    phC5.world.collider 5 = none ∧
    add_collider 0 none ⟨1, 2, 3⟩ phC5 pcCircle5 = none := by
  refine ⟨by decide, by decide, ?_⟩
  rfl

/-- Claim C6 (code bug): after entity 7's collider component is removed,
the next tick's removal event never reaches the remove operation — the
driver's join requires both components to be present, so index 7 is
skipped, no operation is dispatched (empty trace), and the registry still
holds its collider handle. -/
theorem C6_removed_component_not_dispatched :
    (7 : Index) ∈ evC6.removed_physics_colliders ∧
    AList.find 7 phC6.collider_handles = some 3 ∧
    (runTick evC6 stC6 phC6).map
      (fun r => (AList.find 7 r.1.collider_handles, r.2.2)) = some (some 3, []) := by
  decide

/-- Claim C7: if the engine refuses a construction for an entity the tick
processes with create, the whole tick surfaces the failure to its caller
(the panic of the source's `unwrap` is the propagated `none`); and on every
successful tick, every entity processed by create ends up with a cached
handle on its collider component. -/
theorem C7_engine_failure_surfaced (ev : Events) (st : Storages) (ph : Physics)
    (id : Index) (pc : PhysicsCollider)
    (hmem : id ∈ affectedIds ev st)
    (hins : insertedFired ev id)
    (hpc : AList.find id st.colliders = some pc) :
    (ph.world.rejects pc.shape = true → runTick ev st ph = none) ∧
    (∀ ph' st' tr, runTick ev st ph = some (ph', st', tr) →
      ∃ pc' hd, AList.find id st'.colliders = some pc' ∧ pc'.handle = some hd) := by
  obtain ⟨hps, _⟩ := affectedIds_mem ev st id hmem
  obtain ⟨position, hpos⟩ := Option.isSome_iff_exists.mp hps
  constructor
  · intro hrej
    exact runIds_rejects ev (affectedIds ev st) (ph, st) id pc hmem
      (by rw [hpos]; exact Option.some_ne_none position) hpc hins hrej
  · intro ph' st' tr h
    exact runIds_created ev (affectedIds ev st) (ph, st) ph' st' tr id position pc
      (affectedIds_nodup ev st) h hmem hpos hpc hins

theorem C7_engine_failure_surfaced_witness :
    runTick evC9 stC9 phRejecting = none :=
  (C7_engine_failure_surfaced evC9 stC9 phRejecting 0 pcCircle5
    (by decide) (by decide) (by decide)).1 rfl

/-- Claim C8: updating an index whose component caches a handle changes
only the collision-group bitmask of the live collider under that handle;
both registries, the body set, handle allocation, and every other collider
— as well as every other field of the target collider — are unchanged. -/
theorem C8_update_scope (id : Index) (ph : Physics) (pc : PhysicsCollider) (hd : ℕ)
    (hh : pc.handle = some hd) :
    ∃ ph2, update_collider id ph pc = some ph2 ∧
      ph2.body_handles = ph.body_handles ∧
      ph2.collider_handles = ph.collider_handles ∧
      ph2.world.bodies = ph.world.bodies ∧
      ph2.world.nextHandle = ph.world.nextHandle ∧
      (∀ h2, h2 ≠ hd → ph2.world.collider h2 = ph.world.collider h2) ∧
      ph2.world.collider hd = (ph.world.collider hd).map
        (fun cd => { cd with collision_groups := pc.collision_groups }) := by
  refine ⟨_, update_some_spec id ph pc hd hh, rfl, rfl, rfl, rfl, ?_, ?_⟩
  · intro h2 hne
    show AList.find h2 (ph.world.set_collision_groups hd pc.collision_groups).colliders =
      AList.find h2 ph.world.colliders
    unfold World.set_collision_groups
    dsimp only
    rw [find_set_groups]
    cases hq : AList.find h2 ph.world.colliders with
    | none => rfl
    | some cd =>
        rw [Option.map_some', if_neg hne]
  · show AList.find hd (ph.world.set_collision_groups hd pc.collision_groups).colliders =
      (AList.find hd ph.world.colliders).map
        (fun cd => { cd with collision_groups := pc.collision_groups })
    unfold World.set_collision_groups
    dsimp only
    rw [find_set_groups]
    cases hq : AList.find hd ph.world.colliders with
    | none => rfl
    | some cd =>
        rw [Option.map_some', Option.map_some', if_pos rfl]

theorem C8_update_scope_witness :
    ∃ ph2, update_collider 0 phC8 pcC8 = some ph2 ∧
      ph2.collider_handles = phC8.collider_handles ∧
      ph2.world.collider 5 = some { cdC8 with collision_groups := 42 } ∧
      ph2.world.collider 6 = phC8.world.collider 6 := by
  obtain ⟨ph2, h1, _, h3, _, _, h6, h7⟩ := C8_update_scope 0 phC8 pcC8 5 rfl
  refine ⟨ph2, h1, h3, ?_, h6 6 (by decide)⟩
  rw [h7]
  decide

/-- Claim C9: the repository's test scenario — a fresh entity at index 0
with position `(1, 1, 1)` and a circle-of-radius-5 collider, no parent —
after one tick leaves exactly one handle in the collider-handle registry
(registered for index 0), exactly one live collider in the world, and the
new handle cached on the entity's collider component. -/
theorem C9_create_populates_registry :
    (runTick evC9 stC9 emptyPhysics).map (fun r =>
      (r.1.collider_handles.length, r.1.world.colliders.length,
       AList.find 0 r.1.collider_handles,
       (AList.find 0 r.2.1.colliders).map PhysicsCollider.handle)) =
    some (1, 1, some 0, some (some 0)) := by
  decide

/-- Claim C10: a tick that only removes never touches the collider
component — after the remove operation runs for an index with a registered
handle, the registry has no entry for the index while the component in
storage is unchanged, its cached handle field still holding the old, now
stale value. -/
theorem C10_remove_keeps_cached_handle (ev : Events) (id : Index) (ph : Physics)
    (st : Storages) (position : Vector3) (pc : PhysicsCollider) (hdl : ℕ)
    (hpos : AList.find id st.positions = some position)
    (hpc : AList.find id st.colliders = some pc)
    (hins : ¬ insertedFired ev id)
    (hmod : ¬ modifiedFired ev id)
    (hrem : removedFired ev id)
    (hreg : AList.find id ph.collider_handles = some hdl) :
    ∃ ph3 st3, syncStep ev id (ph, st) = some (ph3, st3, [Op.remove]) ∧
      AList.find id st3.colliders = some pc ∧
      AList.find id ph3.collider_handles = none := by
  simp only [syncStep]
  rw [hpos, hpc]
  dsimp only
  have h1 : insertedStage ev id (AList.find id st.parents) position ph pc =
      some (ph, pc, []) := by
    unfold insertedStage
    rw [if_neg hins]
  rw [h1, Option.some_bind]
  dsimp only
  have h2 : modifiedStage ev id ph pc [] = some (ph, []) := by
    unfold modifiedStage
    rw [if_neg hmod]
  rw [h2, Option.some_bind]
  dsimp only
  obtain ⟨ph2, hrc, hfind, _, _, _, _, _, _⟩ := remove_spec id ph
  have h3 : removedStage ev id ph [] = some (ph2, [Op.remove]) := by
    unfold removedStage
    rw [if_pos hrem, hrc, Option.map_some']
    rfl
  rw [h3, Option.map_some']
  exact ⟨ph2, { st with colliders := AList.insert id pc st.colliders }, rfl,
         AList.find_insert_self id pc st.colliders, hfind⟩

theorem C10_remove_keeps_cached_handle_witness :
    ∃ r, syncStep evC10 0 (phC10, stC10) = some r ∧
      AList.find 0 r.2.1.colliders = some { pcCircle5 with handle := some 5 } ∧
      AList.find 0 r.1.collider_handles = none := by
  obtain ⟨ph3, st3, h1, h2, h3⟩ := C10_remove_keeps_cached_handle evC10 0 phC10 stC10
    ⟨1, 1, 1⟩ { pcCircle5 with handle := some 5 } 5 (by decide) (by decide)
    (by decide) (by decide) (by decide) (by decide)
  exact ⟨(ph3, st3, [Op.remove]), h1, h2, h3⟩
